import Mathlib

/-!
Movie discovery interaction model of `frontend/src/App.jsx`.

A shallow embedding of the React component `App`: its five `useState` cells,
the three asynchronous handlers `loadTopMovies`, `handleSearch` and
`handleMovieClick`, the `onClose` callback handed to `MovieModal`, and the
render branch that decides what the movie grid shows.

Every asynchronous handler is split at its `await`: the part that runs when the
handler is called (it ends by issuing a `fetch`) and the part that runs when
the fetch settles (the rest of the `try` block, or the `catch` block, followed
by `finally`).  The two awaits `await fetch(..)` and `await response.json()`
are merged into one settlement, since no state is read or written between them
and both rejections land in the same `catch`.

Strings that the user types are sequences of UTF-16 code units, so that a text
with an unpaired surrogate, on which `encodeURIComponent` throws, is a value of
the model.
-/

namespace MovieExplorer

/-! ## Data carried by the handlers -/

/-- The movie object as read by `App`, `MovieCard` and `MovieModal`. Fields the
components guard with `movie.x &&` are optional. -/
structure Movie where
  tconst : String
  primaryTitle : String
  poster : Option String
  averageRating : Option Rat
  numVotes : Option Nat
  startYear : Option Nat
  runtime : Option String
  genres : Option String
  plot : Option String
  director : Option String
  cast : Option String
deriving DecidableEq, Repr

/-- The two values ever written to `activeTab`: `'top'` and `'search'`. -/
inductive Tab where
  | top
  | search
deriving DecidableEq, Repr

/-- A UTF-16 code unit. -/
abbrev CodeUnit := Fin 65536

/-- A JavaScript string value: a sequence of UTF-16 code units, in which a
surrogate need not be paired. The text of the search box is such a value. -/
abbrev JsString := List CodeUnit

/-- The five `useState` cells of `App` (lines 9-13). -/
structure State where
  searchQuery : JsString
  movies : List Movie
  selectedMovie : Option Movie
  loading : Bool
  activeTab : Tab
deriving DecidableEq, Repr

/-- A call of one of the five state setters. -/
inductive SetCall where
  | setSearchQuery (value : JsString)
  | setMovies (value : List Movie)
  | setSelectedMovie (value : Option Movie)
  | setLoading (value : Bool)
  | setActiveTab (value : Tab)
deriving DecidableEq, Repr

/-- Effect of a setter call on the state cells. -/
def SetCall.apply (s : State) : SetCall → State
  | .setSearchQuery v => { s with searchQuery := v }
  | .setMovies v => { s with movies := v }
  | .setSelectedMovie v => { s with selectedMovie := v }
  | .setLoading v => { s with loading := v }
  | .setActiveTab v => { s with activeTab := v }

/-- The handler whose continuation waits on an in-flight fetch. -/
inductive Cont where
  | loadTopMovies
  | handleSearch
  | handleMovieClick (movie : Movie)
deriving DecidableEq, Repr

/-- An in-flight `fetch`: the requested URL and the suspended handler. -/
structure Pending where
  url : String
  cont : Cont
deriving DecidableEq, Repr

/-- The component together with its environment: the state cells, the fetches
that have been issued and have not settled, the lines written with
`console.error`, and the history of setter calls. -/
structure World where
  ui : State
  inflight : List Pending
  console : List String
  calls : List SetCall
deriving DecidableEq, Repr

/-- Call a state setter: the cell is updated and the call is recorded. -/
def World.set (w : World) (c : SetCall) : World :=
  { w with ui := c.apply w.ui, calls := w.calls ++ [c] }

/-- Issue `fetch(url)` and suspend the handler `k` on it. -/
def World.fetch (w : World) (url : String) (k : Cont) : World :=
  { w with inflight := w.inflight ++ [⟨url, k⟩] }

/-- Write a line with `console.error`. -/
def World.consoleError (w : World) (msg : String) : World :=
  { w with console := w.console ++ [msg] }

/-! ## String helpers of the JavaScript runtime used by `handleSearch` -/

/-- UTF-16 code units of a code point. -/
def utf16Units (n : Nat) : List CodeUnit :=
  if n < 0x10000 then [⟨n % 65536, Nat.mod_lt _ (by decide)⟩]
  else
    [⟨(0xD800 + (n - 0x10000) / 0x400) % 65536, Nat.mod_lt _ (by decide)⟩,
     ⟨(0xDC00 + (n - 0x10000) % 0x400) % 65536, Nat.mod_lt _ (by decide)⟩]

/-- The JavaScript string value of a well-formed text. -/
def js (s : String) : JsString :=
  s.toList.flatMap fun c => utf16Units c.toNat

/-- Code units removed by `String.prototype.trim`: WhiteSpace and
LineTerminator of ECMAScript (all of them are single code units). -/
def isJsWhiteSpace (u : CodeUnit) : Bool :=
  let n := u.val
  n = 0x09 || n = 0x0A || n = 0x0B || n = 0x0C || n = 0x0D || n = 0x20 ||
  n = 0xA0 || n = 0x1680 || (0x2000 ≤ n && n ≤ 0x200A) || n = 0x2028 ||
  n = 0x2029 || n = 0x202F || n = 0x205F || n = 0x3000 || n = 0xFEFF

/-- `String.prototype.trim`. -/
def jsTrim (s : JsString) : JsString :=
  ((s.dropWhile isJsWhiteSpace).reverse.dropWhile isJsWhiteSpace).reverse

/-- Leading (high) surrogate code units. -/
def isHighSurrogate (n : Nat) : Bool := 0xD800 ≤ n && n ≤ 0xDBFF

/-- Trailing (low) surrogate code units. -/
def isLowSurrogate (n : Nat) : Bool := 0xDC00 ≤ n && n ≤ 0xDFFF

/-- The code points of a string (ECMAScript `CodePointAt`, repeated): a high
surrogate followed by a low one is one code point; the result is `none` when
a surrogate is unpaired. -/
def codePoints : JsString → Option (List Nat)
  | [] => some []
  | u :: rest =>
    if isLowSurrogate u.val then none
    else if isHighSurrogate u.val then
      match rest with
      | [] => none
      | v :: rest' =>
        if isLowSurrogate v.val then
          (codePoints rest').map fun cps =>
            (0x10000 + (u.val - 0xD800) * 0x400 + (v.val - 0xDC00)) :: cps
        else none
    else (codePoints rest).map fun cps => u.val :: cps

/-- Upper-case hexadecimal digit of a number below 16. -/
def hexDigit (n : Nat) : Char :=
  if n < 10 then Char.ofNat (48 + n) else Char.ofNat (55 + n)

/-- UTF-8 encoding of a code point. -/
def utf8Bytes (n : Nat) : List Nat :=
  if n < 0x80 then [n]
  else if n < 0x800 then [0xC0 + n / 64, 0x80 + n % 64]
  else if n < 0x10000 then [0xE0 + n / 4096, 0x80 + n / 64 % 64, 0x80 + n % 64]
  else [0xF0 + n / 262144, 0x80 + n / 4096 % 64, 0x80 + n / 64 % 64, 0x80 + n % 64]

/-- Characters `encodeURIComponent` leaves as they are: ASCII letters and
digits and the marks `- _ . ! ~ * ' ( )`. -/
def isUriUnreserved (n : Nat) : Bool :=
  (65 ≤ n && n ≤ 90) || (97 ≤ n && n ≤ 122) || (48 ≤ n && n ≤ 57) ||
  n = 45 || n = 95 || n = 46 || n = 33 || n = 126 || n = 42 || n = 39 || n = 40 || n = 41

/-- The escape sequence of one byte. -/
def percentByte (b : Nat) : List Char :=
  ['%', hexDigit (b / 16), hexDigit (b % 16)]

/-- What `encodeURIComponent` writes for one code point. -/
def encodeCodePoint (cp : Nat) : List Char :=
  if isUriUnreserved cp then [Char.ofNat cp] else (utf8Bytes cp).flatMap percentByte

/-- The global `encodeURIComponent` (ECMAScript `Encode` with the unreserved
set above): it throws `URIError` when the string has an unpaired surrogate. -/
def encodeURIComponent (s : JsString) : Except String String :=
  match codePoints s with
  | none => .error "URIError: URI malformed"
  | some cps => .ok (String.mk (cps.flatMap encodeCodePoint))

/-! ## The handlers -/

/-- The outcome of `await fetch(..)` followed by `await response.json()`:
either one of them throws, or the parsed body is delivered. -/
abbrev FetchResult (α : Type) := Except String α

/-- `loadTopMovies` (lines 19-22) up to its first `await`. -/
def loadTopMovies (w : World) : World :=
  (w.set (.setLoading true)).fetch "/api/movies/top-rated?limit=20" .loadTopMovies

/-- `loadTopMovies` (lines 23-30) once the fetch has settled. The value is the
settlement of the promise the handler returned. -/
def loadTopMoviesResume (w : World) (r : FetchResult (List Movie)) : Except String World :=
  let w1 :=
    match r with
    | .ok data => (w.set (.setMovies data)).set (.setActiveTab .top)
    | .error error => w.consoleError ("Error loading top movies: " ++ error)
  .ok (w1.set (.setLoading false))

/-- `handleSearch` (lines 33-41) up to its first `await`. `e.preventDefault()`
touches no state of the component. The URL is built inside the `try`, before
`fetch` is called: when `encodeURIComponent` throws, no fetch is issued and
the handler runs `catch` (line 46) and `finally` (line 48) at once. -/
def handleSearch (w : World) : World :=
  if jsTrim w.ui.searchQuery = [] then w
  else
    match encodeURIComponent w.ui.searchQuery with
    | .ok title =>
      (w.set (.setLoading true)).fetch
        ("/api/movies?title=" ++ title ++ "&page=0&size=20") .handleSearch
    | .error error =>
      (((w.set (.setLoading true)).consoleError ("Error searching movies: " ++ error)).set
        (.setLoading false))

/-- `handleSearch` (lines 42-49) once the fetch has settled. -/
def handleSearchResume (w : World) (r : FetchResult (List Movie)) : Except String World :=
  let w1 :=
    match r with
    | .ok data => (w.set (.setMovies data)).set (.setActiveTab .search)
    | .error error => w.consoleError ("Error searching movies: " ++ error)
  .ok (w1.set (.setLoading false))

/-- `handleMovieClick` (lines 52-54) up to its first `await`. -/
def handleMovieClick (w : World) (movie : Movie) : World :=
  w.fetch ("/api/movies/" ++ movie.tconst) (.handleMovieClick movie)

/-- `handleMovieClick` (lines 55-60) once the fetch has settled. -/
def handleMovieClickResume (w : World) (movie : Movie) (r : FetchResult Movie) :
    Except String World :=
  match r with
  | .ok detailedMovie => .ok (w.set (.setSelectedMovie (some detailedMovie)))
  | .error error =>
    .ok ((w.consoleError ("Error loading movie details: " ++ error)).set
      (.setSelectedMovie (some movie)))

/-- The `onClose` callback given to `MovieModal` (line 145). -/
def onClose (w : World) : World :=
  w.set (.setSelectedMovie none)

/-- The `onChange` callback of the search input (line 96). -/
def onChange (w : World) (value : JsString) : World :=
  w.set (.setSearchQuery value)

/-! ## Rendering -/

/-- The branch of the movie grid that `App` renders (lines 109-138). -/
inductive Mode where
  | loading
  | top
  | search
  | empty
deriving DecidableEq, Repr

/-- Which branch of the movie grid is rendered from a state. -/
def renderMode (s : State) : Mode :=
  if s.loading then .loading
  else if s.movies.length > 0 then
    (if s.activeTab = .top then .top else .search)
  else .empty

/-- Whether `MovieModal` is rendered (line 142: `selectedMovie && ..`). -/
def modalOpen (s : State) : Bool :=
  s.selectedMovie.isSome

/-! ## Events and executions -/

/-- What a settled fetch delivers to the suspended handler: a thrown error
(from `fetch` or from `response.json()`), a parsed array of movies, or a
parsed movie object. -/
inductive Outcome where
  | failed (error : String)
  | list (data : List Movie)
  | detail (detailedMovie : Movie)
deriving DecidableEq, Repr

/-- Everything that can happen to the mounted component: a call of one of its
callbacks, or the settlement of the in-flight fetch at position `i`.
`loadTopMovies` is called by the mount effect (line 16) and by the
"Top Rated" button (line 76). -/
inductive Event where
  | loadTopMovies
  | onChange (value : JsString)
  | handleSearch
  | handleMovieClick (movie : Movie)
  | onClose
  | settle (i : Nat) (r : Outcome)
deriving DecidableEq, Repr

/-- Run the suspended handler on the outcome of its fetch. An outcome whose
shape the handler does not expect (a movie object for a list request, or the
reverse) is outside the contract of the API and is not delivered. -/
def resume (w : World) : Cont → Outcome → Option (Except String World)
  | .loadTopMovies, .list data => some (loadTopMoviesResume w (.ok data))
  | .loadTopMovies, .failed error => some (loadTopMoviesResume w (.error error))
  | .handleSearch, .list data => some (handleSearchResume w (.ok data))
  | .handleSearch, .failed error => some (handleSearchResume w (.error error))
  | .handleMovieClick movie, .detail d => some (handleMovieClickResume w movie (.ok d))
  | .handleMovieClick movie, .failed error =>
    some (handleMovieClickResume w movie (.error error))
  | _, _ => none

/-- One event. The result is `none` when the event cannot happen: no fetch is
in flight at position `i`, its outcome has the wrong shape, or the handler
would reject its promise. -/
def step (w : World) : Event → Option World
  | .loadTopMovies => some (loadTopMovies w)
  | .onChange value => some (onChange w value)
  | .handleSearch => some (handleSearch w)
  | .handleMovieClick movie => some (handleMovieClick w movie)
  | .onClose => some (onClose w)
  | .settle i r =>
    match w.inflight[i]? with
    | none => none
    | some p =>
      match resume { w with inflight := w.inflight.eraseIdx i } p.cont r with
      | some (.ok w') => some w'
      | _ => none

/-- A sequence of events, from left to right. -/
def run (w : World) : List Event → Option World
  | [] => some w
  | e :: es => (step w e).bind fun w' => run w' es

/-- The component before it is mounted: the initial values of the five
`useState` cells, nothing in flight. -/
def init : World :=
  { ui := { searchQuery := [], movies := [], selectedMovie := none,
            loading := false, activeTab := .top },
    inflight := [], console := [], calls := [] }

/-- Whether the suspended handler is one of the two list loaders. -/
def Cont.isListFetch : Cont → Bool
  | .loadTopMovies => true
  | .handleSearch => true
  | .handleMovieClick _ => false

/-- Number of list fetches (top rated or search) still in flight. -/
def outstanding (w : World) : Nat :=
  (w.inflight.filter fun p => p.cont.isListFetch).length

/-- The array written by the last successful list response of a trace, or
`start` when the trace has none. -/
def lastCommitted (start : List Movie) : List Event → List Movie
  | [] => start
  | .settle _ (.list data) :: es => lastCommitted data es
  | _ :: es => lastCommitted start es

/-- A movie summary with only its id and title set. -/
def summary (tconst title : String) : Movie :=
  { tconst := tconst, primaryTitle := title, poster := none, averageRating := none,
    numVotes := none, startYear := none, runtime := none, genres := none,
    plot := none, director := none, cast := none }

/-! ## What a request URL carries -/

/-- Value of a hexadecimal digit. -/
def hexValue (c : Char) : Option Nat :=
  let n := c.toNat
  if 48 ≤ n ∧ n ≤ 57 then some (n - 48)
  else if 65 ≤ n ∧ n ≤ 70 then some (n - 55)
  else if 97 ≤ n ∧ n ≤ 102 then some (n - 87)
  else none

/-- Percent-decoding of a URL component into bytes. -/
def percentDecode : List Char → Option (List Nat)
  | [] => some []
  | c :: rest =>
    if c = '%' then
      match rest with
      | h :: l :: rest' =>
        match hexValue h, hexValue l with
        | some a, some b => (percentDecode rest').map fun bs => (16 * a + b) :: bs
        | _, _ => none
      | _ => none
    else if c.toNat < 128 then (percentDecode rest).map fun bs => c.toNat :: bs
    else none

/-- Whether a byte is a UTF-8 continuation byte. -/
def isContinuation (b : Nat) : Bool := 0x80 ≤ b && b < 0xC0

/-- UTF-8 decoding, byte by byte. `pending` is `none` between code points;
inside a multi-byte sequence it holds the number of continuation bytes still
expected, the bits read so far, and the least code point the sequence may
encode. Overlong forms, surrogates and values above U+10FFFF are refused. -/
def utf8DecodeFrom : Option (Nat × Nat × Nat) → List Nat → Option (List Nat)
  | none, [] => some []
  | some _, [] => none
  | none, b :: rest =>
    if b < 0x80 then (utf8DecodeFrom none rest).map fun cps => b :: cps
    else if b < 0xC0 then none
    else if b < 0xE0 then utf8DecodeFrom (some (1, b - 0xC0, 0x80)) rest
    else if b < 0xF0 then utf8DecodeFrom (some (2, b - 0xE0, 0x800)) rest
    else if b < 0xF8 then utf8DecodeFrom (some (3, b - 0xF0, 0x10000)) rest
    else none
  | some (n, acc, lo), b :: rest =>
    if isContinuation b then
      if n ≤ 1 then
        if lo ≤ acc * 64 + (b - 0x80) ∧ acc * 64 + (b - 0x80) ≤ 0x10FFFF ∧
            ¬(0xD800 ≤ acc * 64 + (b - 0x80) ∧ acc * 64 + (b - 0x80) ≤ 0xDFFF) then
          (utf8DecodeFrom none rest).map fun cps => (acc * 64 + (b - 0x80)) :: cps
        else none
      else utf8DecodeFrom (some (n - 1, acc * 64 + (b - 0x80), lo)) rest
    else none

/-- UTF-8 decoding of a byte sequence into code points. -/
def utf8Decode (bs : List Nat) : Option (List Nat) :=
  utf8DecodeFrom none bs

/-- Split a list of characters at every occurrence of `sep`. -/
def splitOn (sep : Char) : List Char → List (List Char)
  | [] => [[]]
  | c :: cs =>
    if c = sep then [] :: splitOn sep cs
    else
      match splitOn sep cs with
      | [] => [[c]]
      | x :: xs => (c :: x) :: xs

/-- One `key=value` item of a query string: the key and the code points of the
decoded value. -/
def queryItem (kv : List Char) : Option (String × List Nat) :=
  match splitOn '=' kv with
  | [k, v] => ((percentDecode v).bind utf8Decode).map fun cps => (String.mk k, cps)
  | _ => none

/-- The path of a request URL and the decoded parameters of its query
string. -/
def queryParams (url : String) : Option (String × List (String × List Nat)) :=
  match splitOn '?' url.toList with
  | [path, query] =>
    ((splitOn '&' query).mapM queryItem).map fun ps => (String.mk path, ps)
  | _ => none

/-- A code point that is a Unicode scalar value. -/
def isScalar (cp : Nat) : Prop := cp < 0x110000 ∧ ¬(0xD800 ≤ cp ∧ cp ≤ 0xDFFF)

/-! ## Concrete inputs and bookkeeping used by the theorems -/

/-- A state of the mounted component used as a concrete input: two movies are
listed, the text "matrix" is typed in the search box, nothing is in flight. -/
def sampleWorld : World :=
  { init with ui := { init.ui with searchQuery := js "matrix",
                                   movies := [summary "tt1" "Alpha", summary "tt2" "Beta"] } }

/-- The detail object the API returns for `summary "tt1" "Alpha"`. -/
def alphaDetail : Movie :=
  { summary "tt1" "Alpha" with plot := some "A plot.", director := some "D", cast := some "C" }

/-- The component after a click on "Alpha", `onClose`, and a click on "Beta",
with both detail fetches still in flight. -/
def closedThenBeta : World :=
  handleMovieClick (onClose (handleMovieClick init (summary "tt1" "Alpha")))
    (summary "tt2" "Beta")

/-- The bookkeeping of the `loading` flag: every `setLoading(true)` is matched
by one `setLoading(false)` or by a list fetch still in flight, and `loading`
is `true` only while a list fetch is in flight. -/
def LoadingBalanced (w : World) : Prop :=
  w.calls.count (.setLoading true) = w.calls.count (.setLoading false) + outstanding w ∧
  (w.ui.loading = true → 0 < outstanding w)

/-- The array the top-rated endpoint returns in the sample traces. -/
def topData : List Movie := [summary "tt1" "Alpha", summary "tt2" "Beta"]

/-- The array the title search returns in the sample traces. -/
def foundData : List Movie := [summary "tt3" "Gamma"]

/-- The mount effect loads the top-rated list; once it is shown the user types
"a", submits the search and at once clicks "Top Rated". Both fetches are in
flight at the end: the search at position 0, the later top-rated one at
position 1. -/
def searchThenTop : List Event :=
  [.loadTopMovies, .settle 0 (.list topData), .onChange (js "a"), .handleSearch, .loadTopMovies]

/-- The mount effect loads the top-rated list; once it is shown the user types
"a" and submits the search, which is in flight at the end. -/
def searchIssued : List Event :=
  [.loadTopMovies, .settle 0 (.list topData), .onChange (js "a"), .handleSearch]

/-- The text "a", an unpaired high surrogate (U+D800), "b". -/
def loneSurrogateText : JsString := [0x61, 0xD800, 0x62]

/-- The mount effect loads the top-rated list; once it is shown the text
`loneSurrogateText` is put in the search box and the search is submitted. -/
def loneSurrogateSearch : List Event :=
  [.loadTopMovies, .settle 0 (.list topData), .onChange loneSurrogateText, .handleSearch]

/-- The trace `searchThenTop` followed by the failure of the top-rated fetch;
the search is still in flight. -/
def topFailed : List Event :=
  searchThenTop ++ [.settle 1 (.failed "net")]

/-- The state an execution ends in (the start state when it cannot run). -/
def endState (w : World) (es : List Event) : World :=
  (run w es).getD w

/-- The outcome carried by the last settlement of a trace. -/
def lastSettled : List Event → Option Outcome
  | [] => none
  | .settle _ r :: es => (lastSettled es).orElse fun _ => some r
  | _ :: es => lastSettled es

/-! ## Basic facts about the embedding -/

theorem getElem?_snoc_length {α : Type} (l : List α) (a : α) :
    (l ++ [a])[l.length]? = some a := by
  simp

theorem eraseIdx_snoc_length {α : Type} (l : List α) (a : α) :
    (l ++ [a]).eraseIdx l.length = l := by
  induction l with
  | nil => rfl
  | cons x xs ih => simpa using ih

theorem run_append (w : World) (es fs : List Event) :
    run w (es ++ fs) = (run w es).bind fun w' => run w' fs := by
  induction es generalizing w with
  | nil => rfl
  | cons e es ih =>
    simp only [List.cons_append, run]
    cases step w e with
    | none => rfl
    | some w1 => simpa using ih w1

/-- The three ways a call of `handleSearch` can go: the guard returns, one
fetch is issued, or building the URL throws and the error is handled. -/
theorem handleSearch_cases (w : World) :
    handleSearch w = w ∨
    (∃ title, handleSearch w =
      (w.set (.setLoading true)).fetch ("/api/movies?title=" ++ title ++ "&page=0&size=20")
        .handleSearch) ∨
    (∃ error, handleSearch w =
      ((w.set (.setLoading true)).consoleError ("Error searching movies: " ++ error)).set
        (.setLoading false)) := by
  unfold handleSearch
  split
  · exact Or.inl rfl
  · split
    · next title _ => exact Or.inr (Or.inl ⟨title, rfl⟩)
    · next error _ => exact Or.inr (Or.inr ⟨error, rfl⟩)

/-- A settlement that is delivered found a fetch in flight at its position. -/
theorem step_settle_some {w w' : World} {i : Nat} {r : Outcome}
    (h : step w (.settle i r) = some w') :
    ∃ p, w.inflight[i]? = some p ∧
      resume { w with inflight := w.inflight.eraseIdx i } p.cont r = some (.ok w') := by
  unfold step at h
  cases hp : w.inflight[i]? with
  | none => simp [hp] at h
  | some p =>
    refine ⟨p, rfl, ?_⟩
    simp only [hp] at h
    cases hr : resume { w with inflight := w.inflight.eraseIdx i } p.cont r with
    | none => simp [hr] at h
    | some x =>
      cases x with
      | error msg => simp [hr] at h
      | ok w1 =>
        simp only [hr, Option.some.injEq] at h
        rw [h]

theorem dropWhile_nil_of_forall_dropWhile {α : Type} (p : α → Bool) (l : List α)
    (h : ∀ c ∈ l.dropWhile p, p c = true) : l.dropWhile p = [] := by
  induction l with
  | nil => rfl
  | cons x xs ih =>
    by_cases hx : p x = true
    · simp only [List.dropWhile_cons, hx, if_true] at h ⊢
      exact ih h
    · simp only [List.dropWhile_cons, hx] at h
      exact absurd (h x (by simp)) hx

/-- The trimmed text is empty exactly when every code unit is white space. -/
theorem jsTrim_eq_empty_iff (s : JsString) :
    jsTrim s = [] ↔ s.all isJsWhiteSpace = true := by
  have key : jsTrim s = [] ↔
      (s.dropWhile isJsWhiteSpace).reverse.dropWhile isJsWhiteSpace = [] := by
    unfold jsTrim
    simp
  rw [key, List.dropWhile_eq_nil_iff]
  constructor
  · intro h2
    have h4 := dropWhile_nil_of_forall_dropWhile isJsWhiteSpace s
      (fun c hc => h2 c (by simpa using hc))
    rw [List.dropWhile_eq_nil_iff] at h4
    simpa [List.all_eq_true] using h4
  · intro h c hc
    rw [List.all_eq_true] at h
    have hc1 : c ∈ s.dropWhile isJsWhiteSpace := by simpa using hc
    exact h c ((List.dropWhile_sublist _).subset hc1)

/-! ## The request URL of a search carries the text -/

theorem toNat_ofNat_of_lt (n : Nat) (h : n < 0xD800) : (Char.ofNat n).toNat = n := by
  have hv : n.isValidChar := Or.inl h
  simp only [Char.ofNat, hv, dite_true]
  rfl

theorem hexValue_hexDigit (n : Nat) (h : n < 16) : hexValue (hexDigit n) = some n := by
  interval_cases n <;> rfl

theorem hexDigit_ne (n : Nat) (h : n < 16) :
    hexDigit n ≠ '?' ∧ hexDigit n ≠ '&' ∧ hexDigit n ≠ '=' := by
  interval_cases n <;> decide

theorem percentDecode_cons_of_ne (c : Char) (rest : List Char) (hc : c ≠ '%')
    (h : c.toNat < 128) :
    percentDecode (c :: rest) = (percentDecode rest).map fun bs => c.toNat :: bs := by
  rcases rest with _ | ⟨x, _ | ⟨y, t⟩⟩ <;> simp [percentDecode, hc, h]

theorem percentDecode_percentByte (b : Nat) (hb : b < 256) (rest : List Char) :
    percentDecode (percentByte b ++ rest) = (percentDecode rest).map fun bs => b :: bs := by
  have h1 := hexValue_hexDigit (b / 16) (by omega)
  have h2 := hexValue_hexDigit (b % 16) (by omega)
  have h3 : 16 * (b / 16) + b % 16 = b := by omega
  simp [percentByte, percentDecode, h1, h2, h3]

theorem percentDecode_flatMap (bs : List Nat) (hbs : ∀ b ∈ bs, b < 256) (rest : List Char) :
    percentDecode (bs.flatMap percentByte ++ rest) =
      (percentDecode rest).map fun tl => bs ++ tl := by
  induction bs with
  | nil => simp
  | cons b bs ih =>
    have hb := hbs b (by simp)
    have ih' := ih (fun x hx => hbs x (by simp [hx]))
    rw [List.flatMap_cons, List.append_assoc, percentDecode_percentByte b hb, ih']
    cases percentDecode rest <;> simp

theorem utf8Bytes_lt (cp : Nat) (h : cp < 0x110000) : ∀ b ∈ utf8Bytes cp, b < 256 := by
  intro b hb
  unfold utf8Bytes at hb
  split at hb
  · simp at hb; omega
  · split at hb
    · simp at hb; omega
    · split at hb
      · simp at hb; omega
      · simp at hb; omega

theorem isUriUnreserved_lt {cp : Nat} (h : isUriUnreserved cp = true) :
    cp < 128 ∧ cp ≠ 37 ∧ cp ≠ 63 ∧ cp ≠ 38 ∧ cp ≠ 61 := by
  simp only [isUriUnreserved, Bool.or_eq_true, Bool.and_eq_true, decide_eq_true_eq] at h
  omega

theorem percentDecode_encodeCodePoint (cp : Nat) (h : cp < 0x110000) (rest : List Char) :
    percentDecode (encodeCodePoint cp ++ rest) =
      (percentDecode rest).map fun tl => utf8Bytes cp ++ tl := by
  unfold encodeCodePoint
  split
  · next hu =>
    obtain ⟨h128, h37, -⟩ := isUriUnreserved_lt hu
    have ht := toNat_ofNat_of_lt cp (by omega)
    have hne : Char.ofNat cp ≠ '%' := by
      intro hc
      have := congrArg Char.toNat hc
      rw [ht] at this
      exact h37 this
    have hb : utf8Bytes cp = [cp] := by simp [utf8Bytes, h128]
    rw [hb, List.singleton_append, percentDecode_cons_of_ne _ _ hne (by omega), ht]
    rfl
  · exact percentDecode_flatMap _ (utf8Bytes_lt cp h) rest

theorem percentDecode_encode (cps : List Nat) (h : ∀ cp ∈ cps, cp < 0x110000) :
    percentDecode (cps.flatMap encodeCodePoint) = some (cps.flatMap utf8Bytes) := by
  induction cps with
  | nil => rfl
  | cons cp cps ih =>
    rw [List.flatMap_cons, percentDecode_encodeCodePoint cp (h cp (by simp)),
      ih (fun x hx => h x (by simp [hx]))]
    simp

theorem utf8DecodeFrom_cont (n acc lo b : Nat) (rest : List Nat) (hb : isContinuation b = true)
    (hn : 1 < n) :
    utf8DecodeFrom (some (n, acc, lo)) (b :: rest) =
      utf8DecodeFrom (some (n - 1, acc * 64 + (b - 0x80), lo)) rest := by
  have : ¬ n ≤ 1 := by omega
  simp [utf8DecodeFrom, hb, this]

theorem utf8DecodeFrom_last (acc lo b : Nat) (rest : List Nat) (hb : isContinuation b = true)
    (hlo : lo ≤ acc * 64 + (b - 0x80)) (hs : isScalar (acc * 64 + (b - 0x80))) :
    utf8DecodeFrom (some (1, acc, lo)) (b :: rest) =
      (utf8DecodeFrom none rest).map fun cps => (acc * 64 + (b - 0x80)) :: cps := by
  obtain ⟨h1, h2⟩ := hs
  have h3 : acc * 64 + (b - 0x80) ≤ 0x10FFFF := by omega
  simp only [utf8DecodeFrom, hb, if_true, le_refl]
  rw [if_pos ⟨hlo, h3, h2⟩]

theorem isContinuation_low (k : Nat) : isContinuation (0x80 + k % 64) = true := by
  simp [isContinuation]
  omega

theorem utf8Decode_utf8Bytes (cp : Nat) (hs : isScalar cp) (rest : List Nat) :
    utf8DecodeFrom none (utf8Bytes cp ++ rest) =
      (utf8DecodeFrom none rest).map fun cps => cp :: cps := by
  have hs' := hs
  obtain ⟨h, hsur⟩ := hs'
  unfold utf8Bytes
  split
  · next h1 => simp [utf8DecodeFrom, h1]
  · split
    · next h1 h2 =>
      have e1 : ¬(0xC0 + cp / 64 < 0x80) := by omega
      have e2 : ¬(0xC0 + cp / 64 < 0xC0) := by omega
      have e3 : 0xC0 + cp / 64 < 0xE0 := by omega
      have e4 : (0xC0 + cp / 64 - 0xC0) * 64 + (0x80 + cp % 64 - 0x80) = cp := by omega
      have step1 : utf8DecodeFrom none ((0xC0 + cp / 64) :: (0x80 + cp % 64) :: rest) =
          utf8DecodeFrom (some (1, 0xC0 + cp / 64 - 0xC0, 0x80)) ((0x80 + cp % 64) :: rest) := by
        simp only [utf8DecodeFrom, e1, e2, e3, if_true, if_false]
      simp only [List.cons_append, List.nil_append]
      rw [step1, utf8DecodeFrom_last _ _ _ _ (isContinuation_low cp) (by rw [e4]; omega)
        (by rw [e4]; exact hs), e4]
    · split
      · next h1 h2 h3 =>
        have e1 : ¬(0xE0 + cp / 4096 < 0x80) := by omega
        have e2 : ¬(0xE0 + cp / 4096 < 0xC0) := by omega
        have e3 : ¬(0xE0 + cp / 4096 < 0xE0) := by omega
        have e3' : 0xE0 + cp / 4096 < 0xF0 := by omega
        have e4 : ((0xE0 + cp / 4096 - 0xE0) * 64 + (0x80 + cp / 64 % 64 - 0x80)) * 64 +
            (0x80 + cp % 64 - 0x80) = cp := by omega
        have step1 : utf8DecodeFrom none
            ((0xE0 + cp / 4096) :: (0x80 + cp / 64 % 64) :: (0x80 + cp % 64) :: rest) =
            utf8DecodeFrom (some (2, 0xE0 + cp / 4096 - 0xE0, 0x800))
              ((0x80 + cp / 64 % 64) :: (0x80 + cp % 64) :: rest) := by
          simp only [utf8DecodeFrom, e1, e2, e3, e3', if_true, if_false]
        simp only [List.cons_append, List.nil_append]
        rw [step1, utf8DecodeFrom_cont _ _ _ _ _ (isContinuation_low (cp / 64)) (by omega),
          utf8DecodeFrom_last _ _ _ _ (isContinuation_low cp) (by rw [e4]; omega)
            (by rw [e4]; exact hs), e4]
      · next h1 h2 h3 =>
        have e1 : ¬(0xF0 + cp / 262144 < 0x80) := by omega
        have e2 : ¬(0xF0 + cp / 262144 < 0xC0) := by omega
        have e3 : ¬(0xF0 + cp / 262144 < 0xE0) := by omega
        have e3' : ¬(0xF0 + cp / 262144 < 0xF0) := by omega
        have e3'' : 0xF0 + cp / 262144 < 0xF8 := by omega
        have e4 : (((0xF0 + cp / 262144 - 0xF0) * 64 + (0x80 + cp / 4096 % 64 - 0x80)) * 64 +
            (0x80 + cp / 64 % 64 - 0x80)) * 64 + (0x80 + cp % 64 - 0x80) = cp := by omega
        have step1 : utf8DecodeFrom none
            ((0xF0 + cp / 262144) :: (0x80 + cp / 4096 % 64) :: (0x80 + cp / 64 % 64) ::
              (0x80 + cp % 64) :: rest) =
            utf8DecodeFrom (some (3, 0xF0 + cp / 262144 - 0xF0, 0x10000))
              ((0x80 + cp / 4096 % 64) :: (0x80 + cp / 64 % 64) :: (0x80 + cp % 64) :: rest) := by
          simp only [utf8DecodeFrom, e1, e2, e3, e3', e3'', if_true, if_false]
        simp only [List.cons_append, List.nil_append]
        rw [step1, utf8DecodeFrom_cont _ _ _ _ _ (isContinuation_low (cp / 4096)) (by omega),
          utf8DecodeFrom_cont _ _ _ _ _ (isContinuation_low (cp / 64)) (by omega),
          utf8DecodeFrom_last _ _ _ _ (isContinuation_low cp) (by rw [e4]; omega)
            (by rw [e4]; exact hs), e4]

theorem utf8Decode_flatMap (cps : List Nat) (h : ∀ cp ∈ cps, isScalar cp) :
    utf8Decode (cps.flatMap utf8Bytes) = some cps := by
  unfold utf8Decode
  induction cps with
  | nil => rfl
  | cons cp cps ih =>
    rw [List.flatMap_cons, utf8Decode_utf8Bytes cp (h cp (by simp)),
      ih (fun x hx => h x (by simp [hx]))]
    rfl

theorem codePoints_scalar (s : JsString) :
    ∀ cps, codePoints s = some cps → ∀ cp ∈ cps, isScalar cp := by
  induction s using codePoints.induct with
  | case1 =>
    intro cps h
    rw [codePoints.eq_def] at h
    simp only [Option.some.injEq] at h
    subst h
    simp
  | case2 u rest hl =>
    intro cps h
    rw [codePoints.eq_def] at h
    simp [hl] at h
  | case3 u hl hh =>
    intro cps h
    rw [codePoints.eq_def] at h
    simp [hl, hh] at h
  | case4 u hl hh v rest hv ih =>
    intro cps h
    rw [codePoints.eq_def] at h
    simp only [hl, hh, hv, if_true, if_false, Bool.false_eq_true] at h
    cases hr : codePoints rest with
    | none => simp [hr] at h
    | some tl =>
      simp only [hr, Option.map_some', Option.some.injEq] at h
      subst h
      intro cp hcp
      rcases List.mem_cons.mp hcp with heq | hmem
      · simp only [isHighSurrogate, isLowSurrogate, Bool.and_eq_true,
          decide_eq_true_eq] at hh hv
        unfold isScalar
        omega
      · exact ih tl hr cp hmem
  | case5 u hl hh v rest hv =>
    intro cps h
    rw [codePoints.eq_def] at h
    simp [hl, hh, hv] at h
  | case6 u rest hl hh ih =>
    intro cps h
    rw [codePoints.eq_def] at h
    simp only [hl, hh, if_false, Bool.false_eq_true] at h
    cases hr : codePoints rest with
    | none => simp [hr] at h
    | some tl =>
      simp only [hr, Option.map_some', Option.some.injEq] at h
      subst h
      intro cp hcp
      rcases List.mem_cons.mp hcp with heq | hmem
      · simp only [isHighSurrogate, isLowSurrogate, Bool.and_eq_true,
          decide_eq_true_eq, not_and, not_le] at hh hl
        have := u.isLt
        unfold isScalar
        omega
      · exact ih tl hr cp hmem

/-- Decoding the encoded text gives back its code points. -/
theorem decode_encode (cps : List Nat) (h : ∀ cp ∈ cps, isScalar cp) :
    (percentDecode (cps.flatMap encodeCodePoint)).bind utf8Decode = some cps := by
  rw [percentDecode_encode cps (fun cp hcp => (h cp hcp).1)]
  exact utf8Decode_flatMap cps h

theorem splitOn_of_not_mem (sep : Char) (a : List Char) (h : sep ∉ a) :
    splitOn sep a = [a] := by
  induction a with
  | nil => rfl
  | cons c cs ih =>
    have hc : c ≠ sep := fun e => h (by simp [e])
    have ih' := ih (fun hm => h (List.mem_cons_of_mem _ hm))
    simp [splitOn, hc, ih']

theorem splitOn_append (sep : Char) (a b : List Char) (h : sep ∉ a) :
    splitOn sep (a ++ sep :: b) = a :: splitOn sep b := by
  induction a with
  | nil => simp [splitOn]
  | cons c cs ih =>
    have hc : c ≠ sep := fun e => h (by simp [e])
    have ih' := ih (fun hm => h (List.mem_cons_of_mem _ hm))
    simp [splitOn, hc, ih']

theorem encodeCodePoint_no_separator (cp : Nat) (hs : isScalar cp) :
    ∀ c ∈ encodeCodePoint cp, c ≠ '?' ∧ c ≠ '&' ∧ c ≠ '=' := by
  intro c hc
  unfold encodeCodePoint at hc
  split at hc
  · next hu =>
    obtain ⟨h128, -, h63, h38, h61⟩ := isUriUnreserved_lt hu
    have ht := toNat_ofNat_of_lt cp (by omega)
    simp only [List.mem_singleton] at hc
    subst hc
    refine ⟨?_, ?_, ?_⟩ <;> intro e <;> have := congrArg Char.toNat e <;> rw [ht] at this
    · exact h63 this
    · exact h38 this
    · exact h61 this
  · simp only [List.mem_flatMap] at hc
    obtain ⟨b, hb, hcb⟩ := hc
    have hb256 := utf8Bytes_lt cp hs.1 b hb
    simp only [percentByte, List.mem_cons, List.mem_singleton, List.not_mem_nil, or_false] at hcb
    rcases hcb with rfl | rfl | rfl
    · decide
    · exact hexDigit_ne _ (by omega)
    · exact hexDigit_ne _ (by omega)

theorem encode_no_separator (cps : List Nat) (h : ∀ cp ∈ cps, isScalar cp) :
    ∀ c ∈ cps.flatMap encodeCodePoint, c ≠ '?' ∧ c ≠ '&' ∧ c ≠ '=' := by
  intro c hc
  simp only [List.mem_flatMap] at hc
  obtain ⟨cp, hcp, hc⟩ := hc
  exact encodeCodePoint_no_separator cp (h cp hcp) c hc

/-- The URL built by `handleSearch` carries the path `/api/movies` and the
parameters `title` (the code points of the text), `page=0` and `size=20`. -/
theorem queryParams_search (cps : List Nat) (h : ∀ cp ∈ cps, isScalar cp) :
    queryParams ("/api/movies?title=" ++ String.mk (cps.flatMap encodeCodePoint) ++
        "&page=0&size=20") =
      some ("/api/movies", [("title", cps), ("page", [48]), ("size", [50, 48])]) := by
  have hsep := encode_no_separator cps h
  have hq : '?' ∉ cps.flatMap encodeCodePoint := fun hm => (hsep _ hm).1 rfl
  have ha : '&' ∉ cps.flatMap encodeCodePoint := fun hm => (hsep _ hm).2.1 rfl
  have he : '=' ∉ cps.flatMap encodeCodePoint := fun hm => (hsep _ hm).2.2 rfl
  have hurl : ("/api/movies?title=" ++ String.mk (cps.flatMap encodeCodePoint) ++
      "&page=0&size=20").toList =
      "/api/movies".toList ++ '?' :: (("title=".toList ++ cps.flatMap encodeCodePoint) ++
        '&' :: ("page=0".toList ++ '&' :: "size=20".toList)) := by
    simp [String.toList, String.data_append]
  have hpath : '?' ∉ "/api/movies".toList := by decide
  have hrest : splitOn '?' (("title=".toList ++ cps.flatMap encodeCodePoint) ++
      '&' :: ("page=0".toList ++ '&' :: "size=20".toList)) =
      [("title=".toList ++ cps.flatMap encodeCodePoint) ++
        '&' :: ("page=0".toList ++ '&' :: "size=20".toList)] := by
    apply splitOn_of_not_mem
    simp only [List.mem_append, List.mem_cons, not_or]
    refine ⟨⟨by decide, hq⟩, by decide, by decide, by decide, by decide⟩
  have hamp : splitOn '&' (("title=".toList ++ cps.flatMap encodeCodePoint) ++
      '&' :: ("page=0".toList ++ '&' :: "size=20".toList)) =
      [("title=".toList ++ cps.flatMap encodeCodePoint), "page=0".toList, "size=20".toList] := by
    rw [splitOn_append _ _ _ (by
      simp only [List.mem_append, not_or]
      exact ⟨by decide, ha⟩)]
    rw [splitOn_append _ _ _ (by decide)]
    rw [splitOn_of_not_mem _ _ (by decide)]
  have htitle : queryItem ("title=".toList ++ cps.flatMap encodeCodePoint) =
      some ("title", cps) := by
    unfold queryItem
    have : "title=".toList ++ cps.flatMap encodeCodePoint =
        "title".toList ++ '=' :: cps.flatMap encodeCodePoint := by
      simp [String.toList]
    rw [this, splitOn_append _ _ _ (by decide), splitOn_of_not_mem _ _ he]
    simp only [decode_encode cps h, Option.map_some']
    rfl
  have hpage : queryItem "page=0".toList = some ("page", [48]) := by decide
  have hsize : queryItem "size=20".toList = some ("size", [50, 48]) := by decide
  unfold queryParams
  rw [hurl, splitOn_append _ _ _ hpath, hrest]
  simp only [hamp, List.mapM_cons, List.mapM_nil, htitle, hpage, hsize]
  rfl

/-- The code points of a string determine the string: re-encoding them in
UTF-16 gives the string back. -/
theorem utf16_codePoints (s : JsString) :
    ∀ cps, codePoints s = some cps → cps.flatMap utf16Units = s := by
  induction s using codePoints.induct with
  | case1 =>
    intro cps h
    rw [codePoints.eq_def] at h
    simp only [Option.some.injEq] at h
    subst h
    rfl
  | case2 u rest hl =>
    intro cps h
    rw [codePoints.eq_def] at h
    simp [hl] at h
  | case3 u hl hh =>
    intro cps h
    rw [codePoints.eq_def] at h
    simp [hl, hh] at h
  | case4 u hl hh v rest hv ih =>
    intro cps h
    rw [codePoints.eq_def] at h
    simp only [hl, hh, hv, if_true, if_false, Bool.false_eq_true] at h
    cases hr : codePoints rest with
    | none => simp [hr] at h
    | some tl =>
      simp only [hr, Option.map_some', Option.some.injEq] at h
      subst h
      simp only [isHighSurrogate, isLowSurrogate, Bool.and_eq_true,
        decide_eq_true_eq] at hh hv
      have hu := u.isLt
      have hv' := v.isLt
      have hge : ¬(0x10000 + (u.val - 0xD800) * 0x400 + (v.val - 0xDC00) < 0x10000) := by omega
      have e1 : (0xD800 + (0x10000 + (u.val - 0xD800) * 0x400 + (v.val - 0xDC00) - 0x10000)
          / 0x400) % 65536 = u.val := by omega
      have e2 : (0xDC00 + (0x10000 + (u.val - 0xD800) * 0x400 + (v.val - 0xDC00) - 0x10000)
          % 0x400) % 65536 = v.val := by omega
      rw [List.flatMap_cons, ih tl hr]
      unfold utf16Units
      rw [if_neg hge]
      simp only [List.cons_append, List.nil_append, List.cons.injEq, and_true]
      exact ⟨Fin.ext e1, Fin.ext e2⟩
  | case5 u hl hh v rest hv =>
    intro cps h
    rw [codePoints.eq_def] at h
    simp [hl, hh, hv] at h
  | case6 u rest hl hh ih =>
    intro cps h
    rw [codePoints.eq_def] at h
    simp only [hl, hh, if_false, Bool.false_eq_true] at h
    cases hr : codePoints rest with
    | none => simp [hr] at h
    | some tl =>
      simp only [hr, Option.map_some', Option.some.injEq] at h
      subst h
      have hu := u.isLt
      rw [List.flatMap_cons, ih tl hr]
      unfold utf16Units
      rw [if_pos (by omega)]
      simp only [List.cons_append, List.nil_append, List.cons.injEq, and_true]
      exact Fin.ext (Nat.mod_eq_of_lt hu)

/-! ## Claims settled on single calls -/

/-- C8 fails as stated: the text "a", unpaired surrogate U+D800, "b" has a
non-empty trim, yet submitting it issues no fetch. `encodeURIComponent`
throws inside the `try`; the handler logs the error, and `loading` is set and
cleared. -/
theorem search_lone_surrogate_no_fetch :
    jsTrim loneSurrogateText ≠ [] ∧
    (run init loneSurrogateSearch).map
      (fun w => (w.inflight, w.ui.loading, w.console, w.calls.reverse.take 2)) =
      some ([], false, ["Error searching movies: URIError: URI malformed"],
        [.setLoading false, .setLoading true]) := by
  decide

/-- C8, amended: when the trimmed search text is empty (which is exactly when
every code unit of it is white space), `handleSearch` issues no fetch and
leaves the state cells and everything else unchanged. When the trim is
non-empty and the text is well formed (code points `cps`, which determine the
text), it issues exactly one fetch; the URL has the path `/api/movies` and
the query parameters `title` (decoding to the code points of the text),
`page=0` and `size=20`; no cell except `loading` is touched. When the trim is
non-empty and the text has an unpaired surrogate, no fetch is issued and
`loading` ends `false`. -/
theorem handleSearch_guard (w : World) :
    (jsTrim w.ui.searchQuery = [] ↔ w.ui.searchQuery.all isJsWhiteSpace = true) ∧
    (if jsTrim w.ui.searchQuery = [] then
      step w .handleSearch = some w
    else
      match codePoints w.ui.searchQuery with
      | some cps =>
        cps.flatMap utf16Units = w.ui.searchQuery ∧
        ∃ w' url title, step w .handleSearch = some w' ∧
          w'.inflight = w.inflight ++ [⟨url, .handleSearch⟩] ∧
          w'.inflight.length = w.inflight.length + 1 ∧
          encodeURIComponent w.ui.searchQuery = .ok title ∧
          url = "/api/movies?title=" ++ title ++ "&page=0&size=20" ∧
          queryParams url =
            some ("/api/movies", [("title", cps), ("page", [48]), ("size", [50, 48])]) ∧
          w'.ui = { w.ui with loading := true }
      | none =>
        ∃ w', step w .handleSearch = some w' ∧ w'.inflight = w.inflight ∧
          w'.ui = { w.ui with loading := false }) := by
  refine ⟨jsTrim_eq_empty_iff _, ?_⟩
  by_cases h : jsTrim w.ui.searchQuery = []
  · simp [h, step, handleSearch]
  · rw [if_neg h]
    cases hc : codePoints w.ui.searchQuery with
    | some cps =>
      refine ⟨utf16_codePoints _ cps hc, ?_⟩
      have henc : encodeURIComponent w.ui.searchQuery =
          .ok (String.mk (cps.flatMap encodeCodePoint)) := by
        simp [encodeURIComponent, hc]
      refine ⟨_, _, String.mk (cps.flatMap encodeCodePoint), rfl, ?_, ?_, henc, rfl,
        queryParams_search cps (codePoints_scalar _ cps hc), ?_⟩ <;>
        simp [handleSearch, h, henc, World.set, World.fetch, SetCall.apply]
    | none =>
      have henc : encodeURIComponent w.ui.searchQuery = .error "URIError: URI malformed" := by
        simp [encodeURIComponent, hc]
      simp [step, handleSearch, h, henc, World.set, World.consoleError, SetCall.apply]

theorem handleSearch_guard_witness :
    jsTrim sampleWorld.ui.searchQuery ≠ [] ∧
    codePoints sampleWorld.ui.searchQuery = some [109, 97, 116, 114, 105, 120] ∧
    ([109, 97, 116, 114, 105, 120].flatMap utf16Units = sampleWorld.ui.searchQuery ∧
      ∃ w' url title, step sampleWorld .handleSearch = some w' ∧
        w'.inflight = sampleWorld.inflight ++ [⟨url, .handleSearch⟩] ∧
        w'.inflight.length = sampleWorld.inflight.length + 1 ∧
        encodeURIComponent sampleWorld.ui.searchQuery = .ok title ∧
        url = "/api/movies?title=" ++ title ++ "&page=0&size=20" ∧
        queryParams url =
          some ("/api/movies",
            [("title", [109, 97, 116, 114, 105, 120]), ("page", [48]), ("size", [50, 48])]) ∧
        w'.ui = { sampleWorld.ui with loading := true }) :=
  ⟨by decide, by decide, (handleSearch_guard sampleWorld).2⟩

/-- C2 fails as stated: the search for "a" is in flight and the grid renders
the Loading branch; a click on "Top Rated" whose fetch fails ends with the
grid rendering the Top branch, not the branch from before the call, while the
search is still in flight. -/
theorem failed_call_leaves_loading_mode :
    (run init searchIssued).map (fun w => (renderMode w.ui, outstanding w)) =
      some (.loading, 1) ∧
    (run init (searchIssued ++ [.loadTopMovies, .settle 1 (.failed "net")])).map
      (fun w => (renderMode w.ui, outstanding w)) = some (.top, 1) := by
  decide

/-- C2, amended: a `loadTopMovies` or `handleSearch` call whose fetch (or JSON
parse) throws ends with `movies` and `activeTab` equal to their values from
before the call; the handler catches the error, so its promise is fulfilled
and the event completes. The only cell written is `loading`, which ends
`false`: the rendered branch is never Loading afterwards, it is the branch of
the state before the call with `loading` cleared, and it is the branch from
before the call whenever `loading` was `false` before the call (the whole
state is then as before the call). -/
theorem failed_list_fetch_keeps_results (w : World) (error : String) (k : Event)
    (hk : k = .loadTopMovies ∨
      (k = .handleSearch ∧ jsTrim w.ui.searchQuery ≠ [] ∧
        ∃ title, encodeURIComponent w.ui.searchQuery = .ok title)) :
    ∃ w', run w [k, .settle w.inflight.length (.failed error)] = some w' ∧
      w'.ui.movies = w.ui.movies ∧ w'.ui.activeTab = w.ui.activeTab ∧
      w'.ui = { w.ui with loading := false } ∧
      renderMode w'.ui = renderMode { w.ui with loading := false } ∧
      (w.ui.loading = false → renderMode w'.ui = renderMode w.ui ∧ w'.ui = w.ui) ∧
      renderMode w'.ui ≠ .loading ∧
      w'.inflight = w.inflight ∧
      (∃ w1, loadTopMoviesResume w (.error error) = .ok w1) ∧
      (∃ w1, handleSearchResume w (.error error) = .ok w1) := by
  have hmode : ∀ s : State, renderMode { s with loading := false } ≠ .loading := by
    intro s
    unfold renderMode
    simp only [Bool.false_eq_true, if_false]
    split
    · split <;> simp
    · simp
  have hsame : ∀ s : State, s.loading = false → ({ s with loading := false } : State) = s := by
    intro s hs
    cases s
    simp_all
  rcases hk with rfl | ⟨rfl, hq, title, ht⟩
  · refine ⟨{ w with ui := { w.ui with loading := false }
                     console := w.console ++ ["Error loading top movies: " ++ error]
                     calls := w.calls ++ [.setLoading true, .setLoading false] },
      ?_, rfl, rfl, rfl, rfl,
      ?_, hmode _, rfl, ⟨_, rfl⟩, ⟨_, rfl⟩⟩
    · simp [run, step, loadTopMovies, loadTopMoviesResume, resume, World.set, World.fetch,
        World.consoleError, SetCall.apply, getElem?_snoc_length, eraseIdx_snoc_length]
    · intro hl
      have := hsame w.ui hl
      exact ⟨by simp only [this], this⟩
  · refine ⟨{ w with ui := { w.ui with loading := false }
                     console := w.console ++ ["Error searching movies: " ++ error]
                     calls := w.calls ++ [.setLoading true, .setLoading false] },
      ?_, rfl, rfl, rfl, rfl,
      ?_, hmode _, rfl, ⟨_, rfl⟩, ⟨_, rfl⟩⟩
    · simp [run, step, handleSearch, hq, ht, handleSearchResume, resume, World.set,
        World.fetch, World.consoleError, SetCall.apply, getElem?_snoc_length,
        eraseIdx_snoc_length]
    · intro hl
      have := hsame w.ui hl
      exact ⟨by simp only [this], this⟩

theorem failed_list_fetch_keeps_results_witness :
    (Event.handleSearch = .loadTopMovies ∨
      (Event.handleSearch = .handleSearch ∧ jsTrim sampleWorld.ui.searchQuery ≠ [] ∧
        ∃ title, encodeURIComponent sampleWorld.ui.searchQuery = .ok title)) ∧
    ∃ w', run sampleWorld [.handleSearch, .settle sampleWorld.inflight.length (.failed "net")]
        = some w' ∧
      w'.ui.movies = sampleWorld.ui.movies ∧ w'.ui.activeTab = sampleWorld.ui.activeTab ∧
      w'.ui = { sampleWorld.ui with loading := false } ∧
      renderMode w'.ui = renderMode { sampleWorld.ui with loading := false } ∧
      (sampleWorld.ui.loading = false →
        renderMode w'.ui = renderMode sampleWorld.ui ∧ w'.ui = sampleWorld.ui) ∧
      renderMode w'.ui ≠ .loading ∧
      w'.inflight = sampleWorld.inflight ∧
      (∃ w1, loadTopMoviesResume sampleWorld (.error "net") = .ok w1) ∧
      (∃ w1, handleSearchResume sampleWorld (.error "net") = .ok w1) :=
  ⟨Or.inr ⟨rfl, by decide, "matrix", rfl⟩,
   failed_list_fetch_keeps_results sampleWorld "net" .handleSearch
     (Or.inr ⟨rfl, by decide, "matrix", rfl⟩)⟩

/-- C3: when the fetch at position `i` belongs to `loadTopMovies` or
`handleSearch` and resolves with the array `R`, `movies` becomes exactly `R`,
`loading` becomes `false`, and the rendered branch is Empty when `R` has no
items, Top when `R` is non-empty and the call was `loadTopMovies`, Search when
`R` is non-empty and the call was `handleSearch`. -/
theorem successful_list_response (w : World) (i : Nat) (p : Pending) (R : List Movie)
    (hp : w.inflight[i]? = some p) (hk : p.cont.isListFetch = true) :
    ∃ w', step w (.settle i (.list R)) = some w' ∧
      w'.ui.movies = R ∧ w'.ui.loading = false ∧
      w'.ui.activeTab = (if p.cont = .loadTopMovies then .top else .search) ∧
      renderMode w'.ui =
        (if R.length = 0 then .empty
         else if p.cont = .loadTopMovies then .top else .search) ∧
      w'.inflight = w.inflight.eraseIdx i := by
  obtain ⟨url, k⟩ := p
  cases k with
  | handleMovieClick m => simp [Cont.isListFetch] at hk
  | loadTopMovies =>
    cases R <;>
      simp [step, hp, resume, loadTopMoviesResume, World.set, SetCall.apply, renderMode]
  | handleSearch =>
    cases R <;>
      simp [step, hp, resume, handleSearchResume, World.set, SetCall.apply, renderMode]

theorem successful_list_response_witness :
    ((loadTopMovies sampleWorld).inflight[0]? =
        some ⟨"/api/movies/top-rated?limit=20", .loadTopMovies⟩ ∧
      Cont.isListFetch .loadTopMovies = true) ∧
    ∃ w', step (loadTopMovies sampleWorld) (.settle 0 (.list [alphaDetail])) = some w' ∧
      w'.ui.movies = [alphaDetail] ∧ w'.ui.loading = false ∧
      w'.ui.activeTab = (if Cont.loadTopMovies = .loadTopMovies then .top else .search) ∧
      renderMode w'.ui =
        (if [alphaDetail].length = 0 then .empty
         else if Cont.loadTopMovies = .loadTopMovies then .top else .search) ∧
      w'.inflight = (loadTopMovies sampleWorld).inflight.eraseIdx 0 :=
  ⟨⟨by decide, rfl⟩,
   successful_list_response (loadTopMovies sampleWorld) 0
     ⟨"/api/movies/top-rated?limit=20", .loadTopMovies⟩ [alphaDetail] (by decide) rfl⟩

/-- C6: a click on the movie `S` whose detail fetch fails, with nothing
happening in between, ends with `selectedMovie` holding `S` itself (every
field as in `S`, nothing added), so the modal is rendered; no other state cell
is written and the handler's promise is fulfilled. -/
theorem detail_failure_falls_back (w : World) (S : Movie) (error : String) :
    ∃ w', run w [.handleMovieClick S, .settle w.inflight.length (.failed error)] = some w' ∧
      w'.ui.selectedMovie = some S ∧ modalOpen w'.ui = true ∧
      w'.ui = { w.ui with selectedMovie := some S } ∧
      w'.inflight = w.inflight := by
  simp [run, step, handleMovieClick, handleMovieClickResume, resume, World.set, World.fetch,
    World.consoleError, SetCall.apply, getElem?_snoc_length, eraseIdx_snoc_length, modalOpen]

/-- C7 fails as stated: right after `handleMovieClick` has been called on a
freshly mounted component, and before the detail response arrives,
`selectedMovie` is still `null` and the modal is not rendered. -/
theorem select_not_immediate :
    (run init [.handleMovieClick (summary "tt1" "Alpha")]).map
      (fun w => (w.ui.selectedMovie, modalOpen w.ui)) = some (none, false) ∧
    (run init [.handleMovieClick (summary "tt1" "Alpha")]).map
      (fun w => w.ui.selectedMovie) ≠ some (some (summary "tt1" "Alpha")) := by
  decide

/-- C7, amended: calling `handleMovieClick` on `S` writes no state cell; it
only issues the detail fetch for `S.tconst`. `selectedMovie` is written when
that fetch settles: with the returned object on success, with `S` on
failure. -/
theorem select_sets_on_settlement (w : World) (S : Movie) :
    ∃ w', step w (.handleMovieClick S) = some w' ∧
      w'.ui = w.ui ∧ w'.calls = w.calls ∧
      w'.inflight = w.inflight ++ [⟨"/api/movies/" ++ S.tconst, .handleMovieClick S⟩] ∧
      (∀ d, ∃ w2, step w' (.settle w.inflight.length (.detail d)) = some w2 ∧
        w2.ui.selectedMovie = some d) ∧
      (∀ error, ∃ w2, step w' (.settle w.inflight.length (.failed error)) = some w2 ∧
        w2.ui.selectedMovie = some S) := by
  simp [step, handleMovieClick, handleMovieClickResume, resume, World.set, World.fetch,
    World.consoleError, SetCall.apply, getElem?_snoc_length, eraseIdx_snoc_length]

/-- C5 fails as stated: after a click on `S`, `onClose` and a click on `T`
(with a different id), the late detail response for `S` leaves `selectedMovie`
holding the detail of `S`, not `T`; and after a click on `S` and `onClose`,
the late detail response for `S` leaves `selectedMovie` present. -/
theorem late_detail_overwrites :
    (summary "tt1" "Alpha").tconst ≠ (summary "tt2" "Beta").tconst ∧
    (run init [.handleMovieClick (summary "tt1" "Alpha"), .onClose,
        .handleMovieClick (summary "tt2" "Beta"), .settle 0 (.detail alphaDetail)]).map
      (fun w => w.ui.selectedMovie) = some (some alphaDetail) ∧
    (run init [.handleMovieClick (summary "tt1" "Alpha"), .onClose,
        .handleMovieClick (summary "tt2" "Beta"), .settle 1 (.detail (summary "tt2" "Beta")),
        .settle 0 (.detail alphaDetail)]).map
      (fun w => w.ui.selectedMovie) = some (some alphaDetail) ∧
    (run init [.handleMovieClick (summary "tt1" "Alpha"), .onClose,
        .settle 0 (.detail alphaDetail)]).map
      (fun w => w.ui.selectedMovie) = some (some alphaDetail) := by
  decide

/-- C5, amended: a successful detail response replaces `selectedMovie` with
the returned object whenever it arrives, whatever `selectedMovie` holds at that
moment (closed, or another movie); no other state cell is written. -/
theorem detail_response_always_replaces (w : World) (i : Nat) (p : Pending) (S d : Movie)
    (hp : w.inflight[i]? = some p) (hk : p.cont = .handleMovieClick S) :
    ∃ w', step w (.settle i (.detail d)) = some w' ∧
      w'.ui.selectedMovie = some d ∧
      w'.ui = { w.ui with selectedMovie := some d } ∧
      w'.inflight = w.inflight.eraseIdx i := by
  obtain ⟨url, k⟩ := p
  simp only at hk
  subst hk
  simp [step, hp, resume, handleMovieClickResume, World.set, SetCall.apply]

theorem detail_response_always_replaces_witness :
    (closedThenBeta.inflight[0]? =
        some ⟨"/api/movies/tt1", .handleMovieClick (summary "tt1" "Alpha")⟩ ∧
      Cont.handleMovieClick (summary "tt1" "Alpha") =
        .handleMovieClick (summary "tt1" "Alpha")) ∧
    ∃ w', step closedThenBeta (.settle 0 (.detail alphaDetail)) = some w' ∧
      w'.ui.selectedMovie = some alphaDetail ∧
      w'.ui = { closedThenBeta.ui with selectedMovie := some alphaDetail } ∧
      w'.inflight = closedThenBeta.inflight.eraseIdx 0 :=
  ⟨⟨by decide, rfl⟩,
   detail_response_always_replaces closedThenBeta 0
     ⟨"/api/movies/tt1", .handleMovieClick (summary "tt1" "Alpha")⟩
     (summary "tt1" "Alpha") alphaDetail (by decide) rfl⟩

/-! ## Facts about executions -/

/-- What one event does to `movies` and `activeTab`: a successful list
response writes both, every other event leaves both alone. -/
theorem step_results {w w' : World} {e : Event} (h : step w e = some w') :
    (∀ i data, e = .settle i (.list data) →
      ∃ p, w.inflight[i]? = some p ∧ w'.ui.movies = data ∧ w'.ui.loading = false ∧
        ((p.cont = .loadTopMovies ∧ w'.ui.activeTab = .top) ∨
         (p.cont = .handleSearch ∧ w'.ui.activeTab = .search))) ∧
    ((∀ i data, e ≠ .settle i (.list data)) →
      w'.ui.movies = w.ui.movies ∧ w'.ui.activeTab = w.ui.activeTab) := by
  cases e with
  | loadTopMovies =>
    simp only [step, Option.some.injEq] at h
    subst h
    simp [loadTopMovies, World.set, World.fetch, SetCall.apply]
  | onChange v =>
    simp only [step, Option.some.injEq] at h
    subst h
    simp [onChange, World.set, SetCall.apply]
  | handleSearch =>
    simp only [step, Option.some.injEq] at h
    subst h
    rcases handleSearch_cases w with hw | ⟨title, hw⟩ | ⟨msg, hw⟩ <;> rw [hw] <;>
      simp [World.set, World.fetch, World.consoleError, SetCall.apply]
  | handleMovieClick m =>
    simp only [step, Option.some.injEq] at h
    subst h
    simp [handleMovieClick, World.fetch]
  | onClose =>
    simp only [step, Option.some.injEq] at h
    subst h
    simp [onClose, World.set, SetCall.apply]
  | settle i r =>
    obtain ⟨p, hp, hres⟩ := step_settle_some h
    obtain ⟨url, k⟩ := p
    cases k <;> cases r <;>
      simp [resume, loadTopMoviesResume, handleSearchResume, handleMovieClickResume,
        World.set, World.consoleError, SetCall.apply] at hres <;>
      subst hres <;> simp [hp]

/-- In every execution `movies` holds the array of the last successful list
response, or its starting value when there was none. -/
theorem run_movies (es : List Event) (w w' : World) (h : run w es = some w') :
    w'.ui.movies = lastCommitted w.ui.movies es := by
  induction es generalizing w with
  | nil =>
    simp only [run, Option.some.injEq] at h
    subst h
    rfl
  | cons e es ih =>
    simp only [run] at h
    cases hs : step w e with
    | none => simp [hs] at h
    | some w1 =>
      simp only [hs, Option.some_bind] at h
      have h1 := ih w1 h
      have hr := step_results hs
      cases e with
      | settle i r =>
        cases r with
        | list data =>
          obtain ⟨p, -, hm, -⟩ := hr.1 i data rfl
          rw [h1, hm]
          rfl
        | failed error =>
          rw [h1, (hr.2 (by intro j d; simp)).1]
          rfl
        | detail d =>
          rw [h1, (hr.2 (by intro j d; simp)).1]
          rfl
      | loadTopMovies => rw [h1, (hr.2 (by intro j d; simp)).1]; rfl
      | onChange v => rw [h1, (hr.2 (by intro j d; simp)).1]; rfl
      | handleSearch => rw [h1, (hr.2 (by intro j d; simp)).1]; rfl
      | handleMovieClick m => rw [h1, (hr.2 (by intro j d; simp)).1]; rfl
      | onClose => rw [h1, (hr.2 (by intro j d; simp)).1]; rfl

/-- Events other than successful list responses leave `movies` and `activeTab`
as they are. -/
theorem run_results_unchanged (fs : List Event) (w w' : World) (h : run w fs = some w')
    (hfs : ∀ e ∈ fs, ∀ j d, e ≠ .settle j (.list d)) :
    w'.ui.movies = w.ui.movies ∧ w'.ui.activeTab = w.ui.activeTab := by
  induction fs generalizing w with
  | nil =>
    simp only [run, Option.some.injEq] at h
    subst h
    exact ⟨rfl, rfl⟩
  | cons e fs ih =>
    simp only [run] at h
    cases hs : step w e with
    | none => simp [hs] at h
    | some w1 =>
      simp only [hs, Option.some_bind] at h
      have h1 := ih w1 h (fun e he => hfs e (List.mem_cons_of_mem _ he))
      have h2 := (step_results hs).2 (hfs e (List.mem_cons_self _ _))
      exact ⟨h1.1.trans h2.1, h1.2.trans h2.2⟩

theorem filter_length_eraseIdx {α : Type} (q : α → Bool) (l : List α) (i : Nat) (a : α)
    (h : l[i]? = some a) :
    (l.filter q).length = ((l.eraseIdx i).filter q).length + (if q a = true then 1 else 0) := by
  induction l generalizing i with
  | nil => simp at h
  | cons x xs ih =>
    cases i with
    | zero =>
      simp only [List.getElem?_cons_zero, Option.some.injEq] at h
      subst h
      by_cases hx : q x = true <;> simp [List.filter_cons, hx]
    | succ n =>
      simp only [List.getElem?_cons_succ] at h
      have := ih n h
      by_cases hx : q x = true
      · simp [List.filter_cons, hx, this]
        omega
      · simp [List.filter_cons, hx, this]

theorem outstanding_set (w : World) (c : SetCall) : outstanding (w.set c) = outstanding w := rfl

theorem outstanding_consoleError (w : World) (msg : String) :
    outstanding (w.consoleError msg) = outstanding w := rfl

theorem outstanding_fetch (w : World) (url : String) (k : Cont) :
    outstanding (w.fetch url k) = outstanding w + (if k.isListFetch = true then 1 else 0) := by
  unfold outstanding World.fetch
  by_cases hk : k.isListFetch = true <;> simp [List.filter_append, hk]

theorem outstanding_eraseIdx (w : World) (i : Nat) (p : Pending) (h : w.inflight[i]? = some p) :
    outstanding w = outstanding { w with inflight := w.inflight.eraseIdx i } +
      (if p.cont.isListFetch = true then 1 else 0) :=
  filter_length_eraseIdx (fun (q : Pending) => q.cont.isListFetch) w.inflight i p h

theorem calls_set (w : World) (c : SetCall) : (w.set c).calls = w.calls ++ [c] := rfl

theorem calls_consoleError (w : World) (msg : String) : (w.consoleError msg).calls = w.calls :=
  rfl

theorem calls_fetch (w : World) (url : String) (k : Cont) : (w.fetch url k).calls = w.calls :=
  rfl

theorem loading_set (w : World) (c : SetCall) :
    (w.set c).ui.loading = (match c with | .setLoading v => v | _ => w.ui.loading) := by
  cases c <;> rfl

theorem loading_fetch (w : World) (url : String) (k : Cont) :
    (w.fetch url k).ui.loading = w.ui.loading := rfl

theorem loading_consoleError (w : World) (msg : String) :
    (w.consoleError msg).ui.loading = w.ui.loading := rfl

theorem step_loadingBalanced {w w' : World} {e : Event} (hw : LoadingBalanced w)
    (h : step w e = some w') : LoadingBalanced w' := by
  obtain ⟨hc, hl⟩ := hw
  unfold LoadingBalanced at *
  cases e with
  | loadTopMovies =>
    simp only [step, Option.some.injEq] at h
    subst h
    simp [loadTopMovies, outstanding_fetch, outstanding_set, calls_fetch, calls_set,
      List.count_append, Cont.isListFetch]
    omega
  | onChange v =>
    simp only [step, Option.some.injEq] at h
    subst h
    simpa [onChange, outstanding_set, calls_set, loading_set, List.count_append] using ⟨hc, hl⟩
  | handleSearch =>
    simp only [step, Option.some.injEq] at h
    subst h
    rcases handleSearch_cases w with hw | ⟨title, hw⟩ | ⟨msg, hw⟩ <;> rw [hw]
    · exact ⟨hc, hl⟩
    · simp [outstanding_fetch, outstanding_set, calls_fetch, calls_set,
        List.count_append, Cont.isListFetch]
      omega
    · simp [outstanding_set, outstanding_consoleError, calls_set, calls_consoleError,
        loading_set, List.count_append]
      omega
  | handleMovieClick m =>
    simp only [step, Option.some.injEq] at h
    subst h
    simpa [handleMovieClick, outstanding_fetch, calls_fetch, loading_fetch,
      Cont.isListFetch] using ⟨hc, hl⟩
  | onClose =>
    simp only [step, Option.some.injEq] at h
    subst h
    simpa [onClose, outstanding_set, calls_set, loading_set, List.count_append] using ⟨hc, hl⟩
  | settle i r =>
    obtain ⟨p, hp, hres⟩ := step_settle_some h
    have hf := outstanding_eraseIdx w i p hp
    obtain ⟨url, k⟩ := p
    cases k <;> cases r <;>
      simp only [resume, loadTopMoviesResume, handleSearchResume, handleMovieClickResume,
        Option.some.injEq, Except.ok.injEq, reduceCtorEq] at hres <;>
      subst hres <;>
      simp only [Cont.isListFetch, if_true, if_false, Bool.false_eq_true] at hf <;>
      simp [outstanding_set, outstanding_consoleError, calls_set, calls_consoleError,
        loading_set, loading_consoleError, List.count_append] <;>
      first
        | omega
        | (refine ⟨by omega, ?_⟩
           intro hload
           have := hl hload
           omega)

theorem run_loadingBalanced (es : List Event) (w w' : World) (hw : LoadingBalanced w)
    (h : run w es = some w') : LoadingBalanced w' := by
  induction es generalizing w with
  | nil =>
    simp only [run, Option.some.injEq] at h
    subst h
    exact hw
  | cons e es ih =>
    simp only [run] at h
    cases hs : step w e with
    | none => simp [hs] at h
    | some w1 =>
      simp only [hs, Option.some_bind] at h
      exact ih w1 (step_loadingBalanced hw hs) h

theorem init_loadingBalanced : LoadingBalanced init := by
  unfold LoadingBalanced outstanding init
  simp

/-! ## Claims settled on executions -/

/-- C1 fails as stated: `handleSearch` is issued, then `loadTopMovies`; the
top-rated response arrives first and the search response after it. The
component ends on the search tab showing the search response, not on the top
tab showing the top-rated response of the call issued last. -/
theorem last_issued_does_not_win :
    (run init searchThenTop).map (fun w => w.inflight.map Pending.cont) =
      some [.handleSearch, .loadTopMovies] ∧
    (run init (searchThenTop ++ [.settle 1 (.list topData), .settle 0 (.list foundData)])).map
      (fun w => (w.ui.activeTab, w.ui.movies, renderMode w.ui, w.inflight)) =
      some (.search, foundData, .search, []) ∧
    (run init (searchThenTop ++ [.settle 1 (.list topData), .settle 0 (.list foundData)])).map
      (fun w => (w.ui.activeTab, w.ui.movies)) ≠ some (.top, topData) := by
  decide

/-- C1, amended (last arrived wins): a successful list response is committed
whenever it arrives, whatever was issued after its call. If it is the last
successful list response of the execution, the final `movies` is its array and
the final `activeTab` is the tab of the handler that issued it. -/
theorem last_arrived_wins (w0 w : World) (es fs : List Event) (i : Nat) (data : List Movie)
    (h : run w0 (es ++ .settle i (.list data) :: fs) = some w)
    (hfs : ∀ e ∈ fs, ∀ j d, e ≠ .settle j (.list d)) :
    ∃ w1 p, run w0 es = some w1 ∧ w1.inflight[i]? = some p ∧ w.ui.movies = data ∧
      ((p.cont = .loadTopMovies ∧ w.ui.activeTab = .top) ∨
       (p.cont = .handleSearch ∧ w.ui.activeTab = .search)) := by
  rw [run_append] at h
  cases h1 : run w0 es with
  | none => simp [h1] at h
  | some w1 =>
    simp only [h1, Option.some_bind, run] at h
    cases h2 : step w1 (.settle i (.list data)) with
    | none => simp [h2] at h
    | some w2 =>
      simp only [h2, Option.some_bind] at h
      obtain ⟨p, hp, hm, -, htab⟩ := (step_results h2).1 i data rfl
      obtain ⟨hm', ht'⟩ := run_results_unchanged fs w2 w h hfs
      refine ⟨w1, p, rfl, hp, hm'.trans hm, ?_⟩
      rcases htab with ⟨hk, ht⟩ | ⟨hk, ht⟩
      · exact Or.inl ⟨hk, ht'.trans ht⟩
      · exact Or.inr ⟨hk, ht'.trans ht⟩

theorem last_arrived_wins_witness :
    (run init ((searchThenTop ++ [.settle 1 (.list topData)]) ++
        .settle 0 (.list foundData) :: [.onClose]) =
      some (endState init ((searchThenTop ++ [.settle 1 (.list topData)]) ++
        .settle 0 (.list foundData) :: [.onClose])) ∧
      (∀ e ∈ [Event.onClose], ∀ j d, e ≠ .settle j (.list d))) ∧
    ∃ w1 p, run init (searchThenTop ++ [.settle 1 (.list topData)]) = some w1 ∧
      w1.inflight[0]? = some p ∧
      (endState init ((searchThenTop ++ [.settle 1 (.list topData)]) ++
        .settle 0 (.list foundData) :: [.onClose])).ui.movies = foundData ∧
      ((p.cont = .loadTopMovies ∧
        (endState init ((searchThenTop ++ [.settle 1 (.list topData)]) ++
          .settle 0 (.list foundData) :: [.onClose])).ui.activeTab = .top) ∨
       (p.cont = .handleSearch ∧
        (endState init ((searchThenTop ++ [.settle 1 (.list topData)]) ++
          .settle 0 (.list foundData) :: [.onClose])).ui.activeTab = .search)) :=
  ⟨⟨by decide, by simp⟩,
   last_arrived_wins init
     (endState init ((searchThenTop ++ [.settle 1 (.list topData)]) ++
        .settle 0 (.list foundData) :: [.onClose]))
     (searchThenTop ++ [.settle 1 (.list topData)]) [.onClose] 0
     foundData (by decide) (by simp)⟩

/-- C4 fails as stated: before any fetch has completed, and again after a first
fetch that fails, the grid renders the Empty branch; and after a fetch that
returned zero results, a new call makes the grid render the Loading branch
although the most recent completed fetch returned zero results. -/
theorem empty_mode_without_zero_result :
    renderMode init.ui = .empty ∧ lastSettled [] = none ∧
    (run init [.loadTopMovies, .settle 0 (.failed "net")]).map (fun w => renderMode w.ui) =
      some .empty ∧
    lastSettled [.loadTopMovies, .settle 0 (.failed "net")] = some (.failed "net") ∧
    (run init [.loadTopMovies, .settle 0 (.list []), .loadTopMovies]).map
      (fun w => renderMode w.ui) = some .loading ∧
    lastSettled [.loadTopMovies, .settle 0 (.list []), .loadTopMovies] = some (.list []) := by
  decide

/-- C4, amended: in every state reachable from the initial one, the grid
renders the Empty branch exactly when `loading` is `false` and the most recent
successful list response had zero results, where a trace without a successful
list response counts as zero results (the initial array). Failed fetches do
not count. -/
theorem empty_mode_iff (es : List Event) (w : World) (h : run init es = some w) :
    renderMode w.ui = .empty ↔ (w.ui.loading = false ∧ lastCommitted [] es = []) := by
  have hm : w.ui.movies = lastCommitted [] es := run_movies es init w h
  rw [← hm]
  unfold renderMode
  cases hl : w.ui.loading <;> cases hmv : w.ui.movies <;> simp
  split <;> simp

theorem empty_mode_iff_witness :
    run init [.loadTopMovies, .settle 0 (.failed "net")] =
      some (endState init [.loadTopMovies, .settle 0 (.failed "net")]) ∧
    (renderMode (endState init [.loadTopMovies, .settle 0 (.failed "net")]).ui = .empty ↔
      ((endState init [.loadTopMovies, .settle 0 (.failed "net")]).ui.loading = false ∧
        lastCommitted [] [.loadTopMovies, .settle 0 (.failed "net")] = [])) :=
  ⟨by decide,
   empty_mode_iff [.loadTopMovies, .settle 0 (.failed "net")]
     (endState init [.loadTopMovies, .settle 0 (.failed "net")]) (by decide)⟩

/-- C9: issuing `loadTopMovies` or `handleSearch` never changes `movies`, and
in every state reachable from the initial one (loading or not) `movies` is the
array written by the last successful list response, or the initial empty
array when there has been none. -/
theorem stale_while_loading (es : List Event) (w : World) (h : run init es = some w) :
    w.ui.movies = lastCommitted [] es ∧
    (loadTopMovies w).ui.movies = w.ui.movies ∧
    (handleSearch w).ui.movies = w.ui.movies ∧
    (loadTopMovies w).ui.loading = true := by
  refine ⟨run_movies es init w h, rfl, ?_, rfl⟩
  rcases handleSearch_cases w with hw | ⟨title, hw⟩ | ⟨msg, hw⟩ <;> rw [hw] <;> rfl

theorem stale_while_loading_witness :
    (run init topFailed = some (endState init topFailed) ∧
      (loadTopMovies (endState init topFailed)).ui.loading = true) ∧
    ((endState init topFailed).ui.movies = lastCommitted [] topFailed ∧
      (loadTopMovies (endState init topFailed)).ui.movies = (endState init topFailed).ui.movies ∧
      (handleSearch (endState init topFailed)).ui.movies = (endState init topFailed).ui.movies ∧
      (loadTopMovies (endState init topFailed)).ui.loading = true) :=
  ⟨⟨by decide, by decide⟩, stale_while_loading topFailed (endState init topFailed) (by decide)⟩

/-- C10: in every state reachable from the initial one, `loading` is `false`
whenever no list fetch is in flight, and the `setLoading(true)` calls (one per
issued list fetch, and one per search whose URL could not be built, which is
cleared at once) are matched one to one by the `setLoading(false)` calls and
the list fetches still in flight. Every settlement of a list fetch, success or
failure, is handled and performs exactly one `setLoading(false)`. -/
theorem loading_never_stuck (es : List Event) (w : World) (h : run init es = some w) :
    (outstanding w = 0 → w.ui.loading = false) ∧
    w.calls.count (.setLoading true) = w.calls.count (.setLoading false) + outstanding w ∧
    (∀ i p, w.inflight[i]? = some p → p.cont.isListFetch = true →
      (∀ error, ∃ w2, step w (.settle i (.failed error)) = some w2 ∧
        w2.calls.count (.setLoading false) = w.calls.count (.setLoading false) + 1 ∧
        w2.ui.loading = false ∧ outstanding w2 + 1 = outstanding w) ∧
      (∀ data, ∃ w2, step w (.settle i (.list data)) = some w2 ∧
        w2.calls.count (.setLoading false) = w.calls.count (.setLoading false) + 1 ∧
        w2.ui.loading = false ∧ outstanding w2 + 1 = outstanding w)) := by
  obtain ⟨hc, hl⟩ := run_loadingBalanced es init w init_loadingBalanced h
  refine ⟨?_, hc, ?_⟩
  · intro h0
    cases hb : w.ui.loading with
    | false => rfl
    | true =>
      have := hl hb
      omega
  · intro i p hp hk
    have hf := outstanding_eraseIdx w i p hp
    obtain ⟨url, k⟩ := p
    cases k <;> simp only [Cont.isListFetch, Bool.false_eq_true, if_true] at hk hf <;>
      refine ⟨fun error => ?_, fun data => ?_⟩ <;>
      simp [step, hp, resume, loadTopMoviesResume, handleSearchResume, outstanding_set,
        outstanding_consoleError, calls_set, calls_consoleError, loading_set,
        List.count_append] <;>
      omega

theorem loading_never_stuck_witness :
    (run init topFailed = some (endState init topFailed) ∧
      outstanding (endState init topFailed) = 1 ∧
      (endState init topFailed).ui.loading = false) ∧
    ((outstanding (endState init topFailed) = 0 → (endState init topFailed).ui.loading = false) ∧
    (endState init topFailed).calls.count (.setLoading true) =
      (endState init topFailed).calls.count (.setLoading false) +
        outstanding (endState init topFailed) ∧
    (∀ i p, (endState init topFailed).inflight[i]? = some p → p.cont.isListFetch = true →
      (∀ error, ∃ w2, step (endState init topFailed) (.settle i (.failed error)) = some w2 ∧
        w2.calls.count (.setLoading false) =
          (endState init topFailed).calls.count (.setLoading false) + 1 ∧
        w2.ui.loading = false ∧ outstanding w2 + 1 = outstanding (endState init topFailed)) ∧
      (∀ data, ∃ w2, step (endState init topFailed) (.settle i (.list data)) = some w2 ∧
        w2.calls.count (.setLoading false) =
          (endState init topFailed).calls.count (.setLoading false) + 1 ∧
        w2.ui.loading = false ∧ outstanding w2 + 1 = outstanding (endState init topFailed)))) :=
  ⟨⟨by decide, by decide, by decide⟩,
   loading_never_stuck topFailed (endState init topFailed) (by decide)⟩

end MovieExplorer
